import Mathlib

/-!
Verification of the generation-job orchestrator of `src/server.js`.

The JavaScript source is shallowly embedded: each JS helper becomes a Lean
function over explicit data (JSON payloads become an inductive `JVal`,
strings become `String` manipulated through ASCII-faithful helpers over
`List Char`, JS numbers that hold integer seeds become `Int`, strengths
become `Rat`, randomness becomes an explicit argument, and network calls
become explicit response sequences / outcome arguments).  Thrown JS errors
become `Except` / explicit error constructors.
-/

/-! ### JS string helpers (ASCII-faithful embeddings of the string operations
the server uses: `startsWith`, `trim`, `toLowerCase`, substring search). -/

/-- Embedding of JS `String.prototype.startsWith` as `startsWithL p l`: is `p` a prefix
of `l`? -/
def startsWithL : List Char → List Char → Bool
  | [], _ => true
  | _ :: _, [] => false
  | p :: ps, c :: cs => p == c && startsWithL ps cs

/-- Embedding of an unanchored regex literal-substring test, `containsL n l`: does
`l` contain `n` as a contiguous substring? -/
def containsL (needle : List Char) : List Char → Bool
  | [] => needle.isEmpty
  | c :: t => startsWithL needle (c :: t) || containsL needle t

/-- The whitespace characters relevant to JS `trim` for the payloads the
server handles (ASCII whitespace). -/
def isJsWs (c : Char) : Bool :=
  c == ' ' || c == '\t' || c == '\n' || c == '\r'

/-- Embedding of JS `String.prototype.trim`: drop whitespace from both
ends. -/
def trimL (l : List Char) : List Char :=
  ((l.dropWhile isJsWs).reverse.dropWhile isJsWs).reverse

/-- JS `String.prototype.trim` on `String`. -/
def jsTrim (s : String) : String := String.mk (trimL s.data)

/-- ASCII lowercase of one character, as JS `toLowerCase` acts on the ASCII
range used by the server's comparisons. -/
def charLower (c : Char) : Char :=
  if 'A' ≤ c && c ≤ 'Z' then Char.ofNat (c.toNat + 32) else c

/-- JS `String.prototype.toLowerCase` (ASCII-faithful). -/
def jsToLower (s : String) : String := String.mk (s.data.map charLower)

/-! ### JSON payloads and the Output Extractor (`okUrl`, `pickUrl`,
src/server.js lines 117-135). -/

/-- A JSON value as delivered by the inference provider: the shapes
`pickUrl` can receive.  Object fields are kept in iteration order. -/
inductive JVal where
  | null : JVal
  | bool (b : Bool) : JVal
  | num (n : Int) : JVal
  | str (s : String) : JVal
  | arr (xs : List JVal) : JVal
  | obj (fields : List (String × JVal)) : JVal

/-- JS truthiness test `!v` for the payload values modelled by `JVal`
(arrays and objects are always truthy). -/
def jsFalsy : JVal → Bool
  | .null => true
  | .bool b => !b
  | .num n => decide (n = 0)
  | .str s => decide (s = "")
  | .arr _ => false
  | .obj _ => false

/-- Embedding of `okUrl` (src/server.js line 117): `typeof v === "string"` and the string
matches the case-insensitive regex anchored at the start,
`https?` followed by `://`. -/
def okUrl (s : String) : Bool :=
  startsWithL "http://".data (s.data.map charLower) ||
    startsWithL "https://".data (s.data.map charLower)

/-- The test `okUrl` lifted to a payload value: `some s` exactly when the value is a
URL-shaped string. -/
def urlOf : JVal → Option String
  | .str s => if okUrl s then some s else none
  | _ => none

/-- First URL-shaped value of a list, in order (the `for ... of
Object.values(...)` scans inside `pickUrl`). -/
def firstUrl : List JVal → Option String
  | [] => none
  | v :: t =>
    match urlOf v with
    | some u => some u
    | none => firstUrl t

/-- Embedding of `pickUrl` (src/server.js lines 121-135), branch by branch.
Note the JS control flow: when the payload is an array and the first-element
inspection finds no URL, execution falls through to the
`typeof output === "object"` branch, which is also true for arrays, where
`Object.values` of an array yields its elements in order. -/
def pickUrl (output : JVal) : Option String :=
  if jsFalsy output then none
  else
    match urlOf output with
    | some u => some u
    | none =>
      let arrHit : Option String :=
        match output with
        | .arr (f :: _) =>
          (match urlOf f with
           | some u => some u
           | none =>
             if jsFalsy f then none
             else
               match f with
               | .obj fields => firstUrl (fields.map Prod.snd)
               | .arr ys => firstUrl ys
               | _ => none)
        | _ => none
      match arrHit with
      | some u => some u
      | none =>
        match output with
        | .obj fields => firstUrl (fields.map Prod.snd)
        | .arr ys => firstUrl ys
        | _ => none

/-- Modelled from the amended specification wording of the Output Extractor
(the reference function the code is compared against): the payload itself
when URL-shaped; for a sequence, the first element if URL-shaped, else the
first URL-shaped value of that element when it is a mapping or sequence,
else the first URL-shaped element of the whole sequence; for a non-sequence
mapping, the first URL-shaped value in iteration order; none otherwise. -/
def pickUrlSpec (output : JVal) : Option String :=
  match output with
  | .str s => if okUrl s then some s else none
  | .arr xs =>
    (match xs with
     | [] => none
     | f :: _ =>
       match urlOf f with
       | some u => some u
       | none =>
         let nested : Option String :=
           if jsFalsy f then none
           else
             match f with
             | .obj fields => firstUrl (fields.map Prod.snd)
             | .arr ys => firstUrl ys
             | _ => none
         match nested with
         | some u => some u
         | none => firstUrl xs)
  | .obj fields => firstUrl (fields.map Prod.snd)
  | _ => none

/-! ### The Poller (`pollPredictionByUrl`, src/server.js lines 763-788). -/

/-- One status response from the provider's status-fetch endpoint, as read
by the poll loop. -/
structure Prediction where
  status : String
  error : Option String := none
  logs : Option String := none
deriving Repr, DecidableEq

/-- JS `a || b` on an optional string `a` (absent and empty are falsy). -/
def jsOrS : Option String → String → String
  | some s, d => if s = "" then d else s
  | none, d => d

/-- The detail interpolated into the `Replicate failed:` error:
`last?.error || last?.status || last?.logs || "unknown"`. -/
def failDetail (p : Prediction) : String :=
  jsOrS p.error (jsOrS (some p.status) (jsOrS p.logs "unknown"))

/-- Errors the poll loop can throw: `Replicate failed: <detail>` on a
terminal failed/canceled status, `Replicate timeout` after the try budget. -/
inductive PollErr where
  | jobFailed (detail : String) : PollErr
  | timeoutErr : PollErr
deriving Repr, DecidableEq

/-- A status is terminal when it is `succeeded`, `failed` or `canceled`;
every other status keeps the poll loop going. -/
def isTerminalStatus (p : Prediction) : Bool :=
  decide (p.status = "succeeded") || decide (p.status = "failed") ||
    decide (p.status = "canceled")

/-- The body of the `for (let i = 0; i < tries; i++)` loop of
`pollPredictionByUrl`: `resp i` is the JSON of the i-th status fetch,
`fuel` the remaining iterations. -/
def pollGo (resp : Nat → Prediction) : Nat → Nat → Except PollErr Prediction
  | _, 0 => .error .timeoutErr
  | i, fuel + 1 =>
    let last := resp i
    if last.status = "succeeded" then .ok last
    else if last.status = "failed" ∨ last.status = "canceled" then
      .error (.jobFailed (failDetail last))
    else pollGo resp (i + 1) fuel

/-- Embedding of `pollPredictionByUrl` (src/server.js lines 763-788) with the sequence of
status responses and the try budget explicit (defaults in the source:
`tries = 240`, `delayMs = 1500`; the delay does not affect the result). -/
def pollPredictionByUrl (resp : Nat → Prediction) (tries : Nat) :
    Except PollErr Prediction :=
  pollGo resp 0 tries

/-! ### The fallback model chain of `runSingle` for `remove_bg` / `upscale`
(src/server.js lines 1311-1338). -/

/-- One entry of the `tried` attempt log: `{ model: m.slug, error: String(e) }`. -/
structure Attempt where
  model : String
  error : String
deriving Repr, DecidableEq

/-- What the `remove_bg` / `upscale` branch of `runSingle` produces: a
success object `{ image_url, model, tried }`, the non-fatal upscale
exhaustion object `{ error, status: 502 }`, or a thrown error. -/
inductive ChainOutcome where
  | success (image_url : String) (model : String) (tried : List Attempt) : ChainOutcome
  | noModels (error : String) (status : Int) : ChainOutcome
  | thrownErr (msg : String) : ChainOutcome
deriving Repr, DecidableEq

/-- The `for (const m of MODELS)` loop of `runSingle`'s `remove_bg` /
`upscale` branch, with the network abstracted: each candidate is its slug
paired with the outcome of its try-block (submit + poll + extract), either
an image URL or the caught error string.  `tried` is the loop's accumulator
variable. -/
def runModelChain (action : String) :
    List (String × Except String String) → List Attempt → ChainOutcome
  | [], _tried =>
    if action = "upscale" then .noModels (action ++ ": no available models") 502
    else .thrownErr (action ++ ": all models failed")
  | (slug, res) :: rest, tried =>
    match res with
    | .ok url => .success url slug tried
    | .error e => runModelChain action rest (tried ++ [⟨slug, e⟩])

/-- Candidates that are all forced to fail, from (slug, error) pairs. -/
def toFailCands (fails : List (String × String)) :
    List (String × Except String String) :=
  fails.map (fun p => (p.1, Except.error p.2))

/-- The attempt-log entries those failures generate, in order. -/
def toAttempts (fails : List (String × String)) : List Attempt :=
  fails.map (fun p => ⟨p.1, p.2⟩)

/-! ### The Model Router (`chooseImageModelKey`, src/server.js lines
810-822). -/

/-- The normalization `String(hint || "auto").toLowerCase()`. -/
def hintNorm (hint : String) : String :=
  jsToLower (if hint = "" then "auto" else hint)

/-- The normalization `String(style || "auto").toLowerCase()`. -/
def styleNorm (style : String) : String :=
  jsToLower (if style = "" then "auto" else style)

/-- The keyword alternatives of the regex
`/halloween|kids|pizza|party|fun|gymnastics/i`. -/
def funKeywords : List String :=
  ["halloween", "kids", "pizza", "party", "fun", "gymnastics"]

/-- The regex test `/halloween|kids|pizza|party|fun|gymnastics/i.test(idea)`:
case-insensitive substring search for any keyword. -/
def isFun (idea : String) : Bool :=
  funKeywords.any (fun k => containsL k.data (jsToLower idea).data)

/-- Embedding of `chooseImageModelKey` (src/server.js lines 810-822). -/
def chooseImageModelKey (idea style hint : String) : String :=
  let h := hintNorm hint
  if h = "sdxl" ∨ h = "flux" then h
  else
    let st := styleNorm style
    if st = "cartoon3d" ∨ st = "illustrated" then "flux"
    else if st = "futuristic" ∨ st = "realistic" then "sdxl"
    else if isFun idea then "flux" else "sdxl"

/-! ### The Batch Runner (src/server.js lines 1403-1416). -/

/-- The object `runSingle` resolves with (when it does not throw): some
subset of `image_url`, `model`, `error`, `status` (compare the returns at
lines 1279, 1329, 1336, 1340). -/
structure SingleRes where
  image_url : Option String := none
  model : Option String := none
  error : Option String := none
  status : Option Int := none
deriving Repr, DecidableEq

/-- One element of the `out` array: `{ ok: true, ...(await runSingle(t)) }`
or `{ ok: false, error: String(e) }`. -/
structure BatchEntry where
  ok : Bool
  image_url : Option String := none
  model : Option String := none
  error : Option String := none
  status : Option Int := none
deriving Repr, DecidableEq

/-- Build the `out` entry for one task from the outcome of `runSingle`
(`.error` abstracts a thrown error, caught by the loop's `catch`). -/
def entryOf (r : Except String SingleRes) : BatchEntry :=
  match r with
  | .ok s =>
    { ok := true, image_url := s.image_url, model := s.model,
      error := s.error, status := s.status }
  | .error e => { ok := false, error := some e }

/-- The predicate of `out.find((x) => x.ok && x.image_url)` (an absent or
empty `image_url` is falsy). -/
def truthyUrl (e : BatchEntry) : Bool :=
  e.ok && (match e.image_url with
           | some u => decide (u ≠ "")
           | none => false)

/-- The response object the batch path returns:
`{ ok: true, success: true, mode: action, batch: out }` plus `image_url`
when a first success exists. -/
structure BatchResponse where
  ok : Bool
  success : Bool
  mode : String
  batch : List BatchEntry
  image_url : Option String
deriving Repr, DecidableEq

/-- The batch runner loop (src/server.js lines 1403-1416): run every task
through `runSingle` (abstracted as `exec`), catching per-task errors into
that task's slot, then attach the first successful URL. -/
def runBatchTasks {τ : Type} (exec : τ → Except String SingleRes)
    (mode : String) (tasks : List τ) : BatchResponse :=
  let out := tasks.map (fun t => entryOf (exec t))
  let firstOk := out.find? truthyUrl
  { ok := true, success := true, mode := mode, batch := out,
    image_url :=
      match firstOk with
      | some e => e.image_url
      | none => none }

/-! ### The Batch Planner of `/api/image-studio` (src/server.js lines
1152-1204 and 1346-1401). -/

/-- The lookup `ANGLE_MAP[key] ? ANGLE_MAP[key] : key` (src/server.js lines
1152-1160; every map value is truthy). -/
def angleMapF (k : String) : String :=
  if k = "front" then "front view"
  else if k = "34left" then "3/4 angle, left side"
  else if k = "34right" then "3/4 angle, right side"
  else if k = "side" then "side view"
  else if k = "back" then "back view"
  else if k = "top" then "top-down view"
  else if k = "low" then "low-angle cinematic shot"
  else k

/-- Embedding of `angleOrder()` (src/server.js lines 1162-1171): the fixed 8-key orbit
cycle. -/
def angleOrder : List String :=
  ["front", "34left", "side", "34right", "back", "34right", "side", "34left"]

/-- Embedding of `orbitAngles(count)` (src/server.js lines 1173-1177). -/
def orbitAngles (count : Nat) : List String :=
  ((List.range count).map (fun i => angleOrder.getD (i % angleOrder.length) "")).map
    angleMapF

/-- Normalization of one caller-supplied angle label (src/server.js lines
1202-1205): lowercase + trim, then map through `ANGLE_MAP`, keeping the key
itself when unmapped. -/
def mapAngle (x : String) : String := angleMapF (jsToLower (jsTrim x))

/-- Embedding of `Math.max` on two (finite) integer counts. -/
def jsMaxI (a b : Int) : Int := if a ≤ b then b else a

/-- Embedding of `Math.min` on two (finite) integer counts. -/
def jsMinI (a b : Int) : Int := if a ≤ b then a else b

/-- The clamp `Math.max(1, Math.min(8, n))` on the batch count (src/server.js
lines 1196-1199 and 1378). -/
def clampCount (n : Int) : Int := jsMaxI 1 (jsMinI 8 n)

/-- Embedding of `Math.max` on two (finite) numbers. -/
def jsMax (a b : Rat) : Rat := if a ≤ b then b else a

/-- Embedding of `Math.min` on two (finite) numbers. -/
def jsMin (a b : Rat) : Rat := if a ≤ b then a else b

/-- Embedding of `jitterStrength` (src/server.js lines 1259-1263) with the random draw
`Math.random() * 0.12 - 0.06` passed in as `j`; `isFinite(base)` always
holds for a rational base, so `b = base`. -/
def jitterStrength (base j : Rat) : Rat :=
  jsMin (9 / 10 : Rat) (jsMax (3 / 10 : Rat) (base + j))

/-- The request fields the planner reads, after the route's own parsing
(src/server.js lines 1179-1205): `angles` is already mapped through
`mapAngle`, `batch_count_raw` is `Number(body.batch_count || 1)`. -/
structure StudioReq where
  promptRaw : String
  action : String
  camera_path : String
  angles : List String
  strength : Rat
  seedOpt : Option Int
  seed_lock : Bool
  batch_count_raw : Int

/-- The clamped `batch_count` (src/server.js lines 1196-1199). -/
def batchCount (r : StudioReq) : Int := clampCount r.batch_count_raw

/-- The `baseSeed` of the planner (src/server.js lines 1379-1380): the explicit seed if given,
else the fresh random draw `randSeed`. -/
def baseSeedOf (r : StudioReq) (randSeed : Int) : Int :=
  match r.seedOpt with
  | some s => s
  | none => randSeed

/-- One planned variant task (the fields of the objects pushed at
src/server.js line 1400 that the planner derives; the shared image/mask
payloads are carried unchanged and omitted here). -/
structure PlannedTask where
  prompt : String
  strength : Rat
  seed : Int
deriving Repr, DecidableEq

/-- The batch planning loop (src/server.js lines 1378-1401): `randSeed` is
the draw `Math.floor(Math.random() * 10000000)` and `jitter i` the i-th
variant's `Math.random() * 0.12 - 0.06` draw. -/
def planBatch (r : StudioReq) (randSeed : Int) (jitter : Nat → Rat) :
    List PlannedTask :=
  let count := (clampCount (batchCount r)).toNat
  let baseSeed := baseSeedOf r randSeed
  let seqAngles :=
    if r.camera_path = "orbit" ∧ batchCount r > 1 then orbitAngles count
    else r.angles
  (List.range count).map (fun i =>
    let anglePhrase :=
      if seqAngles.length ≠ 0 then seqAngles.getD (i % seqAngles.length) ""
      else ""
    let p :=
      if anglePhrase ≠ "" then r.promptRaw ++ ", " ++ anglePhrase
      else r.promptRaw
    let s :=
      if r.action = "img2img" ∨ r.action = "inpaint" then
        jitterStrength r.strength (jitter i)
      else r.strength
    let useSeed := if r.seed_lock then baseSeed else baseSeed + i
    { prompt := p, strength := s, seed := useSeed })

/-- The single-output (`batch_count === 1`) prompt (src/server.js lines
1346-1351): with an orbit camera path the angle phrase is empty and the
caller's prompt is used as-is; otherwise the first mapped angle label, when
non-empty, is appended. -/
def singlePrompt (r : StudioReq) : String :=
  let anglePhrase :=
    if r.camera_path = "orbit" then "" else r.angles.getD 0 ""
  if anglePhrase ≠ "" then r.promptRaw ++ ", " ++ anglePhrase
  else r.promptRaw

/-! ### Inline-image normalization of `/api/video-studio`
(`makeDataUrlSafe`, src/server.js lines 154-161, used at lines
1462-1466). -/

/-- Helper `dropHeadL p l`: the remainder of `l` after the prefix `p`, when
`p` is a prefix. -/
def dropHeadL : List Char → List Char → Option (List Char)
  | [], l => some l
  | _ :: _, [] => none
  | p :: ps, c :: cs => if p == c then dropHeadL ps cs else none

/-- Does the regex `data:[^;]+;base64,` match at the head of `l`?  The
`[^;]+` run can only end at the first `;`, so the match is: `data:`, a
non-empty run of non-`;` characters, then `;base64,`. -/
def markerAt (l : List Char) : Bool :=
  match dropHeadL "data:".data l with
  | none => false
  | some rest =>
    let mt := rest.takeWhile (fun c => !(c == ';'))
    !mt.isEmpty && startsWithL ";base64,".data (rest.drop mt.length)

/-- The unanchored regex test `/data:[^;]+;base64,/.test(s)`: does the
pattern match at some position of `l`? -/
def hasMarkerL : List Char → Bool
  | [] => false
  | c :: t => markerAt (c :: t) || hasMarkerL t

/-- The replacement `s.replace(/^data:[^,]+,/, "")`: strip an anchored `data:...,` header
(non-empty, up to the first comma) when present, else leave `l`
unchanged. -/
def stripDataHeaderL (l : List Char) : List Char :=
  match dropHeadL "data:".data l with
  | none => l
  | some rest =>
    let mt := rest.takeWhile (fun c => !(c == ','))
    if mt.isEmpty then l
    else
      match rest.drop mt.length with
      | ',' :: tail => tail
      | _ => l

/-- Embedding of `makeDataUrlSafe` (src/server.js lines 154-161). -/
def makeDataUrlSafe (s : String) : Option String :=
  let t := jsTrim s
  if startsWithL "data:".data t.data then
    (if hasMarkerL t.data then some t
     else some (String.mk ("data:image/png;base64,".data ++ stripDataHeaderL t.data)))
  else none

/-- Outcome of the incoming-image handling of `/api/video-studio`
(src/server.js lines 1455-1466). -/
inductive ImgNorm where
  | missingImage : ImgNorm
  | badDataUrl : ImgNorm
  | passed (image : String) : ImgNorm
deriving Repr, DecidableEq

/-- The `/api/video-studio` incoming-image normalization (src/server.js
lines 1455-1466): reject an empty payload; repair a payload that starts
with `data:` through `makeDataUrlSafe`; pass any other payload through
unchanged. -/
def normalizeIncomingImage (incoming : String) : ImgNorm :=
  if incoming = "" then .missingImage
  else if startsWithL "data:".data incoming.data then
    match makeDataUrlSafe incoming with
    | none => .badDataUrl
    | some f => .passed f
  else .passed incoming

/-! ## Theorems -/

/-- Claim C1, counterexample: the Output Extractor is claimed to return none
for every sequence whose first element yields no URL, regardless of later
positions.  The code instead falls through to the `typeof output ===
"object"` branch, which also holds for arrays, and scans all elements: on
`[1, "http://x"]` it returns `"http://x"`, not none. -/
theorem pickUrl_scans_later_array_elements :
    pickUrl (JVal.arr [JVal.num 1, JVal.str "http://x"]) = some "http://x" := by
  rfl

/-- Claim C1 (amended): `pickUrl` is deterministic and total (a pure Lean
function on every payload), and agrees everywhere with the amended
extraction rule `pickUrlSpec`: the payload itself when it is a URL-shaped
string; for a sequence, the first element if URL-shaped, else the first
URL-shaped value of that element when it is a mapping (or nested sequence),
else — unlike the original claim — the first URL-shaped element of the
whole sequence; for a non-sequence mapping, the first URL-shaped value in
iteration order; and none in every other case. -/
theorem pickUrl_matches_amended_spec :
    ∀ output : JVal, pickUrl output = pickUrlSpec output := by
  intro output
  cases output with
  | null => rfl
  | bool b => cases b <;> rfl
  | num n =>
    by_cases h : n = 0 <;> simp [pickUrl, pickUrlSpec, jsFalsy, urlOf, h]
  | str s =>
    by_cases h : s = ""
    · subst h; rfl
    · by_cases hu : okUrl s <;>
        simp [pickUrl, pickUrlSpec, jsFalsy, urlOf, h, hu]
  | arr xs =>
    cases xs with
    | nil => rfl
    | cons f t =>
      cases hu : urlOf f <;>
        simp [pickUrl, pickUrlSpec, jsFalsy, hu,
          show urlOf (JVal.arr (f :: t)) = none from rfl]
  | obj fields => rfl

/-- If the i-th status response is non-terminal, one poll iteration just
moves on to the next response. -/
theorem pollGo_step_nonterm (resp : Nat → Prediction) (i fuel : Nat)
    (h : isTerminalStatus (resp i) = false) :
    pollGo resp i (fuel + 1) = pollGo resp (i + 1) fuel := by
  have h' := h
  simp only [isTerminalStatus, Bool.or_eq_false_iff, decide_eq_false_iff_not] at h'
  simp [pollGo, h'.1.1, h'.1.2, h'.2]

/-- Skipping `k` non-terminal responses shifts the poll loop by `k`. -/
theorem pollGo_shift (resp : Nat → Prediction) :
    ∀ (k i fuel : Nat), k ≤ fuel →
      (∀ j, j < k → isTerminalStatus (resp (i + j)) = false) →
      pollGo resp i fuel = pollGo resp (i + k) (fuel - k) := by
  intro k
  induction k with
  | zero => intro i fuel _ _; simp
  | succ k ih =>
    intro i fuel hle h
    obtain ⟨fuel', rfl⟩ : ∃ f', fuel = f' + 1 := ⟨fuel - 1, by omega⟩
    have h0 : isTerminalStatus (resp i) = false := by
      simpa using h 0 (Nat.succ_pos k)
    rw [pollGo_step_nonterm resp i fuel' h0]
    have := ih (i + 1) fuel' (by omega)
      (fun j hj => by
        have := h (j + 1) (by omega)
        simpa [Nat.add_assoc, Nat.add_comm 1 j] using this)
    rw [this]
    congr 1
    · omega
    · omega

/-- Claim C2: for every try budget `tries ≥ 1` and every sequence of status
responses, the poller returns the job on the first `succeeded` response,
raises the job-failed error (carrying the upstream detail
`error || status || logs || "unknown"`) on the first `failed` or `canceled`
response without further fetches, and raises the timeout error after
exactly `tries` non-terminal responses. -/
theorem pollPredictionByUrl_spec :
    ∀ (resp : Nat → Prediction) (tries : Nat), 1 ≤ tries →
      ((∀ k, k < tries → (∀ j, j < k → isTerminalStatus (resp j) = false) →
          (((resp k).status = "succeeded" →
              pollPredictionByUrl resp tries = .ok (resp k)) ∧
           (((resp k).status = "failed" ∨ (resp k).status = "canceled") →
              pollPredictionByUrl resp tries =
                .error (.jobFailed (failDetail (resp k)))))) ∧
       ((∀ j, j < tries → isTerminalStatus (resp j) = false) →
          pollPredictionByUrl resp tries = .error .timeoutErr)) := by
  intro resp tries _htries
  constructor
  · intro k hk hpre
    have hshift := pollGo_shift resp k 0 tries (Nat.le_of_lt hk)
      (fun j hj => by simpa using hpre j hj)
    obtain ⟨m, hm⟩ : ∃ m, tries - k = m + 1 := ⟨tries - k - 1, by omega⟩
    constructor
    · intro hs
      unfold pollPredictionByUrl
      rw [hshift, hm]
      simp [pollGo, hs]
    · intro hf
      unfold pollPredictionByUrl
      rw [hshift, hm]
      have hns : ¬((resp (0 + k)).status = "succeeded") := by
        rcases hf with hf | hf <;> simp [hf]
      rcases hf with hf | hf <;> simp [pollGo, hns, hf]
  · intro hall
    unfold pollPredictionByUrl
    rw [pollGo_shift resp tries 0 tries (Nat.le_refl tries)
      (fun j hj => by simpa using hall j hj)]
    simp [pollGo]

/-- Witness for claim C2 at a concrete response sequence: one `processing`
response, then `succeeded`; and a sequence that fails on its second
response; and an always-`processing` sequence exhausting 3 tries. -/
theorem pollPredictionByUrl_spec_witness :
    pollPredictionByUrl
        (fun i => if i = 0 then { status := "processing" }
                  else { status := "succeeded" }) 3 =
      .ok { status := "succeeded" } ∧
    pollPredictionByUrl
        (fun i => if i = 0 then { status := "processing" }
                  else { status := "failed", error := some "boom" }) 3 =
      .error (.jobFailed "boom") ∧
    pollPredictionByUrl (fun _ => { status := "processing" }) 3 =
      .error .timeoutErr := by
  refine ⟨?_, ?_, ?_⟩
  · exact ((pollPredictionByUrl_spec
      (fun i => if i = 0 then { status := "processing" }
                else { status := "succeeded" }) 3 (by decide)).1 1 (by decide)
      (by decide)).1 (by decide)
  · exact ((pollPredictionByUrl_spec
      (fun i => if i = 0 then { status := "processing" }
                else { status := "failed", error := some "boom" }) 3 (by decide)).1
      1 (by decide) (by decide)).2 (by decide)
  · exact (pollPredictionByUrl_spec
      (fun _ => { status := "processing" }) 3 (by decide)).2 (by decide)

/-- A run of failing candidates at the front of the chain only moves their
attempt entries, in order, into the accumulated `tried` log. -/
theorem runModelChain_append_fails (action : String) :
    ∀ (fails : List (String × String))
      (cs : List (String × Except String String)) (tried : List Attempt),
      runModelChain action (toFailCands fails ++ cs) tried =
        runModelChain action cs (tried ++ toAttempts fails) := by
  intro fails
  induction fails with
  | nil => intro cs tried; simp [toFailCands, toAttempts]
  | cons p t ih =>
    intro cs tried
    simp only [toFailCands, toAttempts] at ih ⊢
    simp only [List.map_cons, List.cons_append, runModelChain, List.append_eq]
    rw [ih cs (tried ++ [Attempt.mk p.1 p.2])]
    congr 1
    simp

/-- Claim C3, counterexample: the exhaustion outcome of an all-fail upscale
chain is the bare object `{ error: "upscale: no available models",
status: 502 }`; it coincides for chains of different lengths and different
per-candidate errors, so it cannot carry the length-N attempt log the claim
says is attached. -/
theorem runModelChain_drops_attempt_log :
    runModelChain "upscale"
        (toFailCands [("stability-ai/stable-diffusion-x4-upscaler", "err A"),
                      ("stability-ai/sd-x4-upscaler", "err B")]) [] =
      .noModels "upscale: no available models" 502 ∧
    runModelChain "upscale"
        (toFailCands [("stability-ai/stable-diffusion-x4-upscaler", "err A"),
                      ("stability-ai/sd-x4-upscaler", "err B")]) [] =
      runModelChain "upscale" (toFailCands [("nightmareai/real-esrgan", "other")]) [] := by
  exact ⟨rfl, rfl⟩

/-- Claim C3 (amended): for every all-fail chain the loop's attempt log
accumulates exactly one `(candidateId, error)` entry per candidate in chain
order — visible whenever a later candidate succeeds, since the success
object carries the log of all prior failures — and the exhaustion outcome
follows the per-action policy: upscale yields the non-fatal
`{ error: "upscale: no available models", status: 502 }` result (without
the attempt log attached), while remove_bg raises the hard failure
`remove_bg: all models failed`. -/
theorem runModelChain_exhaustion_policy :
    ∀ (fails : List (String × String)) (slug url : String)
      (rest : List (String × Except String String)),
      runModelChain "upscale" (toFailCands fails) [] =
        .noModels "upscale: no available models" 502 ∧
      runModelChain "remove_bg" (toFailCands fails) [] =
        .thrownErr "remove_bg: all models failed" ∧
      (∀ action,
        runModelChain action (toFailCands fails ++ (slug, Except.ok url) :: rest) [] =
          .success url slug (toAttempts fails)) := by
  intro fails slug url rest
  refine ⟨?_, ?_, ?_⟩
  · have := runModelChain_append_fails "upscale" fails [] []
    simpa [runModelChain] using this
  · have := runModelChain_append_fails "remove_bg" fails [] []
    simpa [runModelChain] using this
  · intro action
    have := runModelChain_append_fails action fails ((slug, Except.ok url) :: rest) []
    simpa [runModelChain] using this

/-- Claim C4: the model router `chooseImageModelKey` is total (its result is
always one of the two model keys), honors an explicit valid hint (`sdxl` or
`flux`) verbatim regardless of idea and style, is deterministic (equal
inputs give equal keys), and falls through to the default high-fidelity key
`sdxl` on inputs matching no hint, style, or keyword rule. -/
theorem chooseImageModelKey_spec :
    ∀ (idea style hint : String),
      (chooseImageModelKey idea style hint = "sdxl" ∨
       chooseImageModelKey idea style hint = "flux") ∧
      (hint = "sdxl" ∨ hint = "flux" →
        chooseImageModelKey idea style hint = hint) ∧
      (∀ idea2 style2 hint2, idea2 = idea → style2 = style → hint2 = hint →
        chooseImageModelKey idea2 style2 hint2 =
          chooseImageModelKey idea style hint) ∧
      (hintNorm hint ≠ "sdxl" → hintNorm hint ≠ "flux" →
       styleNorm style ≠ "cartoon3d" → styleNorm style ≠ "illustrated" →
       styleNorm style ≠ "futuristic" → styleNorm style ≠ "realistic" →
       isFun idea = false →
       chooseImageModelKey idea style hint = "sdxl") := by
  intro idea style hint
  refine ⟨?_, ?_, ?_, ?_⟩
  · by_cases h1 : hintNorm hint = "sdxl" ∨ hintNorm hint = "flux"
    · simp only [chooseImageModelKey, if_pos h1]
      exact h1
    · simp only [chooseImageModelKey, if_neg h1]
      by_cases h2 : styleNorm style = "cartoon3d" ∨ styleNorm style = "illustrated"
      · simp [h2]
      · by_cases h3 : styleNorm style = "futuristic" ∨ styleNorm style = "realistic"
        · simp [h2, h3]
        · by_cases h4 : isFun idea <;> simp [h2, h3, h4]
  · rintro (rfl | rfl) <;> rfl
  · intro idea2 style2 hint2 h1 h2 h3
    rw [h1, h2, h3]
  · intro h1 h2 h3 h4 h5 h6 h7
    simp [chooseImageModelKey, h1, h2, h3, h4, h5, h6, h7]

/-- Witness for claim C4: a valid hint wins over a styled request, and a
hint-less, style-less, keyword-less request falls through to `sdxl`. -/
theorem chooseImageModelKey_spec_witness :
    chooseImageModelKey "office portrait" "cartoon3d" "sdxl" = "sdxl" ∧
    chooseImageModelKey "office portrait" "auto" "auto" = "sdxl" := by
  constructor
  · exact (chooseImageModelKey_spec "office portrait" "cartoon3d" "sdxl").2.1
      (Or.inl rfl)
  · exact (chooseImageModelKey_spec "office portrait" "auto" "auto").2.2.2
      (by decide) (by decide) (by decide) (by decide) (by decide) (by decide)
      (by decide)

/-- The function `List.find?` returns the element at the first index satisfying the
predicate. -/
theorem find?_first_true {α : Type} (p : α → Bool) :
    ∀ (l : List α) (k : Nat) (hk : k < l.length),
      p (l.get ⟨k, hk⟩) = true →
      (∀ j (hj : j < l.length), j < k → p (l.get ⟨j, hj⟩) = false) →
      l.find? p = some (l.get ⟨k, hk⟩) := by
  intro l
  induction l with
  | nil => intro k hk; exact absurd hk (by simp)
  | cons a t ih =>
    intro k hk hp hpre
    cases k with
    | zero =>
      have ha : p a = true := by simpa using hp
      simp [List.find?, ha]
    | succ k =>
      have ha : p a = false := by
        simpa using hpre 0 (by simp) (Nat.succ_pos k)
      have hk' : k < t.length := by simpa using hk
      have hp' : p (t.get ⟨k, hk'⟩) = true := by simpa using hp
      have hpre' : ∀ j (hj : j < t.length), j < k → p (t.get ⟨j, hj⟩) = false := by
        intro j hj hjk
        simpa using hpre (j + 1) (by simpa using Nat.succ_lt_succ hj)
          (Nat.succ_lt_succ hjk)
      have := ih k hk' hp' hpre'
      simpa [List.find?, ha] using this

/-- The function `List.find?` finds nothing when the predicate fails everywhere. -/
theorem find?_all_false {α : Type} (p : α → Bool) :
    ∀ l : List α,
      (∀ j (hj : j < l.length), p (l.get ⟨j, hj⟩) = false) →
      l.find? p = none := by
  intro l
  induction l with
  | nil => intro _; rfl
  | cons a t ih =>
    intro h
    have ha : p a = false := by simpa using h 0 (by simp)
    have := ih (fun j hj => by
      simpa using h (j + 1) (by simpa using Nat.succ_lt_succ hj))
    simp [List.find?, ha, this]

/-- The `batch` field of the batch response is the per-task entry list. -/
theorem runBatchTasks_batch {τ : Type} (exec : τ → Except String SingleRes)
    (mode : String) (tasks : List τ) :
    (runBatchTasks exec mode tasks).batch =
      tasks.map (fun t => entryOf (exec t)) := rfl

/-- The convenience URL of the batch response comes from
`out.find((x) => x.ok && x.image_url)`. -/
theorem runBatchTasks_image_url {τ : Type} (exec : τ → Except String SingleRes)
    (mode : String) (tasks : List τ) :
    (runBatchTasks exec mode tasks).image_url =
      match (tasks.map (fun t => entryOf (exec t))).find? truthyUrl with
      | some e => e.image_url
      | none => none := rfl

/-- Claim C5: the batch runner catches each task's failure into that task's
own result slot without aborting siblings, always reports `ok = true` when
the run completes (even when every task fails), carries exactly one entry
per task in original order, and surfaces the first successful entry's URL
as the top-level convenience pointer (absent when no task produced a
URL). -/
theorem runBatchTasks_spec :
    ∀ {τ : Type} (exec : τ → Except String SingleRes) (mode : String)
      (tasks : List τ),
      (runBatchTasks exec mode tasks).ok = true ∧
      (runBatchTasks exec mode tasks).success = true ∧
      (runBatchTasks exec mode tasks).batch.length = tasks.length ∧
      (∀ i (h1 : i < tasks.length)
         (h2 : i < (runBatchTasks exec mode tasks).batch.length),
        (runBatchTasks exec mode tasks).batch.get ⟨i, h2⟩ =
          entryOf (exec (tasks.get ⟨i, h1⟩))) ∧
      (∀ i (h1 : i < tasks.length)
         (h2 : i < (runBatchTasks exec mode tasks).batch.length) (e : String),
        exec (tasks.get ⟨i, h1⟩) = .error e →
        ((runBatchTasks exec mode tasks).batch.get ⟨i, h2⟩).ok = false ∧
        ((runBatchTasks exec mode tasks).batch.get ⟨i, h2⟩).error = some e) ∧
      (∀ k (hk : k < (runBatchTasks exec mode tasks).batch.length),
        truthyUrl ((runBatchTasks exec mode tasks).batch.get ⟨k, hk⟩) = true →
        (∀ j (hj : j < (runBatchTasks exec mode tasks).batch.length), j < k →
          truthyUrl ((runBatchTasks exec mode tasks).batch.get ⟨j, hj⟩) = false) →
        (runBatchTasks exec mode tasks).image_url =
          ((runBatchTasks exec mode tasks).batch.get ⟨k, hk⟩).image_url) ∧
      ((∀ j (hj : j < (runBatchTasks exec mode tasks).batch.length),
          truthyUrl ((runBatchTasks exec mode tasks).batch.get ⟨j, hj⟩) = false) →
        (runBatchTasks exec mode tasks).image_url = none) := by
  intro τ exec mode tasks
  refine ⟨rfl, rfl, by simp [runBatchTasks], ?_, ?_, ?_, ?_⟩
  · intro i h1 h2
    simp [runBatchTasks, List.get_eq_getElem, List.getElem_map]
  · intro i h1 h2 e he
    have hget : (runBatchTasks exec mode tasks).batch.get ⟨i, h2⟩ =
        entryOf (exec (tasks.get ⟨i, h1⟩)) := by
      simp [runBatchTasks, List.get_eq_getElem, List.getElem_map]
    rw [hget, he]
    exact ⟨rfl, rfl⟩
  · intro k hk ht hpre
    have hfind : (tasks.map (fun t => entryOf (exec t))).find? truthyUrl =
        some ((runBatchTasks exec mode tasks).batch.get ⟨k, hk⟩) := by
      rw [← runBatchTasks_batch exec mode tasks]
      exact find?_first_true truthyUrl _ k hk ht (fun j hj hjk => hpre j hj hjk)
    rw [runBatchTasks_image_url, hfind]
  · intro hall
    have hfind : (tasks.map (fun t => entryOf (exec t))).find? truthyUrl = none := by
      rw [← runBatchTasks_batch exec mode tasks]
      exact find?_all_false truthyUrl _ (fun j hj => hall j hj)
    rw [runBatchTasks_image_url, hfind]

/-- Witness for claim C5 on a concrete 4-task batch whose last three tasks
fail: the run is structurally successful, has one entry per task, and
surfaces the first success's URL. -/
theorem runBatchTasks_spec_witness :
    (runBatchTasks
      (fun n : Nat => if n = 0 then Except.ok { image_url := some "http://one" }
                      else Except.error "provider down")
      "img2img" [0, 1, 2, 3]).ok = true ∧
    (runBatchTasks
      (fun n : Nat => if n = 0 then Except.ok { image_url := some "http://one" }
                      else Except.error "provider down")
      "img2img" [0, 1, 2, 3]).batch.length = 4 ∧
    (runBatchTasks
      (fun n : Nat => if n = 0 then Except.ok { image_url := some "http://one" }
                      else Except.error "provider down")
      "img2img" [0, 1, 2, 3]).image_url = some "http://one" := by
  refine ⟨?_, ?_, ?_⟩
  · exact (runBatchTasks_spec
      (fun n : Nat => if n = 0 then Except.ok { image_url := some "http://one" }
                      else Except.error "provider down")
      "img2img" [0, 1, 2, 3]).1
  · exact (runBatchTasks_spec
      (fun n : Nat => if n = 0 then Except.ok { image_url := some "http://one" }
                      else Except.error "provider down")
      "img2img" [0, 1, 2, 3]).2.2.1
  · have h := (runBatchTasks_spec
      (fun n : Nat => if n = 0 then Except.ok { image_url := some "http://one" }
                      else Except.error "provider down")
      "img2img" [0, 1, 2, 3]).2.2.2.2.2.1 0 (by decide) (by decide)
      (fun j hj hj0 => absurd hj0 (Nat.not_lt_zero j))
    exact h.trans (by decide)

/-- Reading index `i < n` out of a mapped range. -/
theorem getD_map_range {α : Type} (n : Nat) (f : Nat → α) (i : Nat) (d : α)
    (h : i < n) : ((List.range n).map f).getD i d = f i := by
  have hlen : i < ((List.range n).map f).length := by simpa using h
  rw [List.getD_eq_getElem _ _ hlen]
  simp

/-- The cycle `orbitAngles` produces one phrase per requested variant. -/
theorem orbitAngles_length (count : Nat) : (orbitAngles count).length = count := by
  simp [orbitAngles]

/-- The clamped batch count is at least 1. -/
theorem clampCount_toNat_pos (n : Int) : 0 < (clampCount n).toNat := by
  simp only [clampCount, jsMaxI, jsMinI]
  split_ifs <;> omega

/-- Claim C6: every planned batch task's seed is the base seed when seed
lock is requested, and the base seed offset by the task's index otherwise;
the base seed is the caller's explicit seed when given, else the freshly
drawn random value. -/
theorem planBatch_seed_derivation :
    ∀ (r : StudioReq) (randSeed : Int) (jitter : Nat → Rat) (i : Nat),
      i < (planBatch r randSeed jitter).length →
      ((planBatch r randSeed jitter).getD i ⟨"", 0, 0⟩).seed =
        (if r.seed_lock then baseSeedOf r randSeed
         else baseSeedOf r randSeed + i) ∧
      (∀ s, r.seedOpt = some s → baseSeedOf r randSeed = s) ∧
      (r.seedOpt = none → baseSeedOf r randSeed = randSeed) := by
  intro r randSeed jitter i hi
  have hi' : i < (clampCount (batchCount r)).toNat := by
    simpa [planBatch] using hi
  refine ⟨?_, ?_, ?_⟩
  · simp only [planBatch]
    rw [getD_map_range _ _ _ _ hi']
  · intro s hs
    simp [baseSeedOf, hs]
  · intro hs
    simp [baseSeedOf, hs]

/-- Witness for claim C6 at the spec's example: `count = 5`, explicit seed
1000; with seed lock every task has seed 1000, without it task 3 has seed
1003. -/
theorem planBatch_seed_derivation_witness :
    ((planBatch
        { promptRaw := "a cat", action := "text2img", camera_path := "none",
          angles := [], strength := 6 / 10, seedOpt := some 1000,
          seed_lock := true, batch_count_raw := 5 } 0 (fun _ => 0)).getD 2
      ⟨"", 0, 0⟩).seed = 1000 ∧
    ((planBatch
        { promptRaw := "a cat", action := "text2img", camera_path := "none",
          angles := [], strength := 6 / 10, seedOpt := some 1000,
          seed_lock := false, batch_count_raw := 5 } 0 (fun _ => 0)).getD 3
      ⟨"", 0, 0⟩).seed = 1003 := by
  constructor
  · have h := (planBatch_seed_derivation
      { promptRaw := "a cat", action := "text2img", camera_path := "none",
        angles := [], strength := 6 / 10, seedOpt := some 1000,
        seed_lock := true, batch_count_raw := 5 } 0 (fun _ => 0) 2
      (by simp only [planBatch, List.length_map, List.length_range]; decide)).1
    exact h.trans (by decide)
  · have h := (planBatch_seed_derivation
      { promptRaw := "a cat", action := "text2img", camera_path := "none",
        angles := [], strength := 6 / 10, seedOpt := some 1000,
        seed_lock := false, batch_count_raw := 5 } 0 (fun _ => 0) 3
      (by simp only [planBatch, List.length_map, List.length_range]; decide)).1
    exact h.trans (by decide)

/-- Claim C7: with an orbit camera path and a batch of more than one
variant, the framing phrase of variant `i` is entry `i mod 8` of the fixed
8-step angle cycle, mapped through the angle-phrase table, appended to the
caller's prompt. -/
theorem planBatch_orbit_framing :
    ∀ (r : StudioReq) (randSeed : Int) (jitter : Nat → Rat) (i : Nat),
      r.camera_path = "orbit" → batchCount r > 1 →
      i < (planBatch r randSeed jitter).length →
      ((planBatch r randSeed jitter).getD i ⟨"", 0, 0⟩).prompt =
        r.promptRaw ++ ", " ++ angleMapF (angleOrder.getD (i % 8) "") := by
  intro r randSeed jitter i hcam hbc hi
  have hi' : i < (clampCount (batchCount r)).toNat := by
    simpa [planBatch] using hi
  have hseq : (if r.camera_path = "orbit" ∧ batchCount r > 1
      then orbitAngles (clampCount (batchCount r)).toNat else r.angles) =
      orbitAngles (clampCount (batchCount r)).toNat := if_pos ⟨hcam, hbc⟩
  have hphrase : (orbitAngles ((clampCount (batchCount r)).toNat)).getD i "" =
      angleMapF (angleOrder.getD (i % 8) "") := by
    simp only [orbitAngles, List.map_map]
    rw [getD_map_range _ _ _ _ hi']
    rfl
  have hnem : angleMapF (angleOrder.getD (i % 8) "") ≠ "" := by
    have h8 : i % 8 < 8 := Nat.mod_lt _ (by norm_num)
    exact (by decide : ∀ k, k < 8 → angleMapF (angleOrder.getD k "") ≠ "")
      (i % 8) h8
  simp only [planBatch, hseq]
  rw [getD_map_range _ _ _ _ hi']
  simp only [orbitAngles_length]
  rw [if_pos (by omega : (clampCount (batchCount r)).toNat ≠ 0),
    Nat.mod_eq_of_lt hi', hphrase, if_pos hnem]

/-- Witness for claim C7: an orbit batch of 3 has as its third prompt the
caller's prompt plus the cycle's third phrase, `side view`. -/
theorem planBatch_orbit_framing_witness :
    ((planBatch
        { promptRaw := "a red car", action := "text2img",
          camera_path := "orbit", angles := [], strength := 6 / 10,
          seedOpt := none, seed_lock := false, batch_count_raw := 3 } 7
      (fun _ => 0)).getD 2 ⟨"", 0, 0⟩).prompt = "a red car, side view" := by
  have h := planBatch_orbit_framing
    { promptRaw := "a red car", action := "text2img", camera_path := "orbit",
      angles := [], strength := 6 / 10, seedOpt := none, seed_lock := false,
      batch_count_raw := 3 } 7 (fun _ => 0) 2 rfl (by decide)
    (by simp only [planBatch, List.length_map, List.length_range]; decide)
  exact h.trans (by decide)

/-- The planned task at index `i`, written out. -/
theorem planBatch_getD (r : StudioReq) (randSeed : Int) (jitter : Nat → Rat)
    (i : Nat) (hi : i < (planBatch r randSeed jitter).length) :
    (planBatch r randSeed jitter).getD i ⟨"", 0, 0⟩ =
      (let seqAngles :=
        if r.camera_path = "orbit" ∧ batchCount r > 1
        then orbitAngles (clampCount (batchCount r)).toNat else r.angles
      let anglePhrase :=
        if seqAngles.length ≠ 0 then seqAngles.getD (i % seqAngles.length) ""
        else ""
      { prompt :=
          if anglePhrase ≠ "" then r.promptRaw ++ ", " ++ anglePhrase
          else r.promptRaw,
        strength :=
          if r.action = "img2img" ∨ r.action = "inpaint" then
            jitterStrength r.strength (jitter i)
          else r.strength,
        seed :=
          if r.seed_lock then baseSeedOf r randSeed
          else baseSeedOf r randSeed + i }) := by
  have hi' : i < (clampCount (batchCount r)).toNat := by
    simpa [planBatch] using hi
  simp only [planBatch]
  rw [getD_map_range _ _ _ _ hi']

/-- Claim C8: strength jitter equals the base strength plus the jitter
offset, clamped into [0.3, 0.9] (so every jittered strength lies in that
interval), and the planner applies it only to the image-edit actions
`img2img` and `inpaint`, leaving the base strength untouched otherwise. -/
theorem jitterStrength_spec :
    ∀ b j : Rat, |j| ≤ 6 / 100 →
      ((3 : Rat) / 10 ≤ jitterStrength b j ∧ jitterStrength b j ≤ 9 / 10) ∧
      (3 / 10 ≤ b + j → b + j ≤ 9 / 10 → jitterStrength b j = b + j) ∧
      (b + j ≤ 3 / 10 → jitterStrength b j = 3 / 10) ∧
      (9 / 10 ≤ b + j → jitterStrength b j = 9 / 10) ∧
      (∀ (r : StudioReq) (randSeed : Int) (jitter : Nat → Rat) (i : Nat),
        ¬(r.action = "img2img" ∨ r.action = "inpaint") →
        i < (planBatch r randSeed jitter).length →
        ((planBatch r randSeed jitter).getD i ⟨"", 0, 0⟩).strength =
          r.strength) ∧
      (∀ (r : StudioReq) (randSeed : Int) (jitter : Nat → Rat) (i : Nat),
        (r.action = "img2img" ∨ r.action = "inpaint") →
        i < (planBatch r randSeed jitter).length →
        ((planBatch r randSeed jitter).getD i ⟨"", 0, 0⟩).strength =
          jitterStrength r.strength (jitter i)) := by
  intro b j _hj
  refine ⟨⟨?_, ?_⟩, ?_, ?_, ?_, ?_, ?_⟩
  · simp only [jitterStrength, jsMin, jsMax]
    split_ifs <;> linarith
  · simp only [jitterStrength, jsMin, jsMax]
    split_ifs <;> linarith
  · intro h1 h2
    simp only [jitterStrength, jsMin, jsMax]
    split_ifs <;> linarith
  · intro h1
    simp only [jitterStrength, jsMin, jsMax]
    split_ifs <;> linarith
  · intro h1
    simp only [jitterStrength, jsMin, jsMax]
    split_ifs <;> linarith
  · intro r randSeed jitter i hact hi
    rw [planBatch_getD r randSeed jitter i hi]
    simp [hact]
  · intro r randSeed jitter i hact hi
    rw [planBatch_getD r randSeed jitter i hi]
    rcases hact with h | h <;> simp [h]

/-- Witness for claim C8: base strength 0.6 with jitter offset 0.02 stays
unclamped at 0.62, and a non-edit (`text2img`) batch keeps the base
strength. -/
theorem jitterStrength_spec_witness :
    jitterStrength (6 / 10) (1 / 50) = 6 / 10 + 1 / 50 ∧
    ((planBatch
        { promptRaw := "a cat", action := "text2img", camera_path := "none",
          angles := [], strength := 6 / 10, seedOpt := some 1,
          seed_lock := false, batch_count_raw := 2 } 0
      (fun _ => 1 / 50)).getD 0 ⟨"", 0, 0⟩).strength = 6 / 10 := by
  constructor
  · exact (jitterStrength_spec (6 / 10) (1 / 50)
      (by rw [abs_le]; constructor <;> norm_num)).2.1
      (by norm_num) (by norm_num)
  · exact (jitterStrength_spec (6 / 10) (1 / 50)
      (by rw [abs_le]; constructor <;> norm_num)).2.2.2.2.1
      { promptRaw := "a cat", action := "text2img", camera_path := "none",
        angles := [], strength := 6 / 10, seedOpt := some 1,
        seed_lock := false, batch_count_raw := 2 } 0 (fun _ => 1 / 50) 0
      (by decide)
      (by simp only [planBatch, List.length_map, List.length_range]; decide)

/-- A list starts with itself followed by anything. -/
theorem startsWithL_self_append :
    ∀ p t : List Char, startsWithL p (p ++ t) = true := by
  intro p
  induction p with
  | nil => intro t; rfl
  | cons c cs ih => intro t; simp [startsWithL, ih]

/-- A successful prefix test decomposes the list. -/
theorem startsWithL_exists :
    ∀ p l : List Char, startsWithL p l = true → ∃ t, l = p ++ t := by
  intro p
  induction p with
  | nil => intro l _; exact ⟨l, rfl⟩
  | cons c cs ih =>
    intro l h
    cases l with
    | nil => simp [startsWithL] at h
    | cons a as =>
      simp only [startsWithL, Bool.and_eq_true, beq_iff_eq] at h
      obtain ⟨rfl, h2⟩ := h
      obtain ⟨t, rfl⟩ := ih as h2
      exact ⟨t, rfl⟩

/-- Dropping a prefix of whitespace cannot cross a non-whitespace
character. -/
theorem dropWhile_append_nonws (q : Char → Bool) :
    ∀ (a : List Char) (c : Char) (b : List Char), q c = false →
      ∃ rr, List.dropWhile q (a ++ c :: b) = rr ++ c :: b := by
  intro a
  induction a with
  | nil =>
    intro c b hc
    exact ⟨[], by simp [List.dropWhile, hc]⟩
  | cons x xs ih =>
    intro c b hc
    by_cases hx : q x
    · obtain ⟨rr, hrr⟩ := ih c b hc
      exact ⟨rr, by simp [List.dropWhile, hx, hrr]⟩
    · refine ⟨x :: xs, ?_⟩
      simp [List.dropWhile, hx]

/-- Trimming preserves a leading `data:` header (its characters are not
whitespace). -/
theorem trimL_keeps_data_head :
    ∀ l : List Char, startsWithL "data:".data l = true →
      startsWithL "data:".data (trimL l) = true := by
  intro l h
  obtain ⟨t, rfl⟩ := startsWithL_exists _ _ h
  have hdata : "data:".data = ['d', 'a', 't', 'a', ':'] := rfl
  rw [hdata]
  unfold trimL
  have h1 : List.dropWhile isJsWs (['d', 'a', 't', 'a', ':'] ++ t) =
      ['d', 'a', 't', 'a', ':'] ++ t := rfl
  rw [h1]
  have h2 : (['d', 'a', 't', 'a', ':'] ++ t).reverse =
      t.reverse ++ (':' :: ['a', 't', 'a', 'd']) := by
    rw [List.reverse_append]; rfl
  rw [h2]
  obtain ⟨rr, hrr⟩ :=
    dropWhile_append_nonws isJsWs t.reverse ':' ['a', 't', 'a', 'd'] rfl
  rw [hrr]
  rw [show (rr ++ ':' :: ['a', 't', 'a', 'd']).reverse =
    ['d', 'a', 't', 'a', ':'] ++ rr.reverse from by
      rw [List.reverse_append]; rfl]
  exact startsWithL_self_append _ _

/-- When the trimmed payload starts with `data:` and carries the
media-type/base64 marker, `makeDataUrlSafe` passes the trimmed payload
through. -/
theorem makeDataUrlSafe_marker (s : String)
    (hpre : startsWithL "data:".data (jsTrim s).data = true)
    (hmark : hasMarkerL (jsTrim s).data = true) :
    makeDataUrlSafe s = some (jsTrim s) := by
  simp only [makeDataUrlSafe]
  rw [if_pos hpre, if_pos hmark]

/-- When the trimmed payload starts with `data:` but lacks the marker,
`makeDataUrlSafe` repairs it to the canonical png/base64 form. -/
theorem makeDataUrlSafe_repair (s : String)
    (hpre : startsWithL "data:".data (jsTrim s).data = true)
    (hmark : hasMarkerL (jsTrim s).data = false) :
    makeDataUrlSafe s =
      some (String.mk ("data:image/png;base64,".data ++
        stripDataHeaderL (jsTrim s).data)) := by
  simp only [makeDataUrlSafe]
  rw [if_pos hpre, if_neg (by simp [hmark])]

/-- Claim C9, counterexample: an inline base64 payload that does not begin
with `data:` (here a bare PNG base64 fragment) is not rejected as an
invalid input; the route passes it through to submission unchanged. -/
theorem videoStudio_passes_nondata_payload :
    normalizeIncomingImage "iVBORw0KGgo" = .passed "iVBORw0KGgo" := rfl

/-- Claim C9 (amended): the image-to-video inline payload handling rejects
only an empty payload; a payload that does not begin with `data:` is
passed through unchanged (treated as a remote URL) rather than rejected;
a payload beginning with `data:` that carries the media-type/base64 marker
passes through (trimmed), and one lacking the marker is repaired to
`data:image/png;base64,<payload>` with any `data:...,` header stripped —
the `Bad data URL` rejection is unreachable for `data:` payloads. -/
theorem videoStudio_image_normalization :
    ∀ s : String,
      (s = "" → normalizeIncomingImage s = .missingImage) ∧
      (s ≠ "" → startsWithL "data:".data s.data = false →
        normalizeIncomingImage s = .passed s) ∧
      (startsWithL "data:".data s.data = true →
        (hasMarkerL (jsTrim s).data = true →
          normalizeIncomingImage s = .passed (jsTrim s)) ∧
        (hasMarkerL (jsTrim s).data = false →
          normalizeIncomingImage s = .passed
            (String.mk ("data:image/png;base64,".data ++
              stripDataHeaderL (jsTrim s).data)))) := by
  intro s
  refine ⟨?_, ?_, ?_⟩
  · intro h; subst h; rfl
  · intro hne hpre
    simp only [normalizeIncomingImage]
    rw [if_neg hne, if_neg (by simp [hpre])]
  · intro hpre
    have hne : s ≠ "" := by
      intro h; subst h; exact absurd hpre (by decide)
    have htrim : startsWithL "data:".data (jsTrim s).data = true :=
      trimL_keeps_data_head s.data hpre
    constructor
    · intro hmark
      simp only [normalizeIncomingImage]
      rw [if_neg hne, if_pos hpre, makeDataUrlSafe_marker s htrim hmark]
    · intro hmark
      simp only [normalizeIncomingImage]
      rw [if_neg hne, if_pos hpre, makeDataUrlSafe_repair s htrim hmark]

/-- Witness for claim C9: a marked data URL passes through, an unmarked one
is repaired, and a bare base64 fragment passes through unrejected. -/
theorem videoStudio_image_normalization_witness :
    normalizeIncomingImage "data:image/jpeg;base64,abcd" =
      .passed "data:image/jpeg;base64,abcd" ∧
    normalizeIncomingImage "data:foo,YWJj" =
      .passed "data:image/png;base64,YWJj" ∧
    normalizeIncomingImage "iVBOR" = .passed "iVBOR" := by
  refine ⟨?_, ?_, ?_⟩
  · have h := ((videoStudio_image_normalization
      "data:image/jpeg;base64,abcd").2.2 (by decide)).1 (by decide)
    exact h.trans (by decide)
  · have h := ((videoStudio_image_normalization "data:foo,YWJj").2.2
      (by decide)).2 (by decide)
    exact h.trans (by decide)
  · exact (videoStudio_image_normalization "iVBOR").2.1 (by decide) (by decide)

/-- Claim C10: on the single-output path, an orbit camera path suppresses
every caller-supplied angle label and submits the caller's prompt
unchanged; with any other camera path the first mapped angle label, when
present and non-empty, is appended to the prompt. -/
theorem singlePrompt_orbit_spec :
    ∀ r : StudioReq,
      (r.camera_path = "orbit" → singlePrompt r = r.promptRaw) ∧
      (r.camera_path ≠ "orbit" →
        (∀ a rest, r.angles = a :: rest → a ≠ "" →
          singlePrompt r = r.promptRaw ++ ", " ++ a) ∧
        (r.angles.getD 0 "" = "" → singlePrompt r = r.promptRaw)) := by
  intro r
  constructor
  · intro h; simp [singlePrompt, h]
  · intro h
    constructor
    · intro a rest ha hne
      simp [singlePrompt, h, ha, hne]
    · intro hga
      have hga' : r.angles[0]?.getD "" = "" := by simpa using hga
      simp [singlePrompt, h, hga']

/-- Witness for claim C10: with `camera_path = "orbit"` the supplied angle
label is ignored; with `camera_path = "none"` it is appended. -/
theorem singlePrompt_orbit_spec_witness :
    singlePrompt
      { promptRaw := "a red car", action := "text2img",
        camera_path := "orbit", angles := ["front view"], strength := 6 / 10,
        seedOpt := none, seed_lock := false, batch_count_raw := 1 } =
      "a red car" ∧
    singlePrompt
      { promptRaw := "a red car", action := "text2img",
        camera_path := "none", angles := ["front view"], strength := 6 / 10,
        seedOpt := none, seed_lock := false, batch_count_raw := 1 } =
      "a red car, front view" := by
  constructor
  · exact (singlePrompt_orbit_spec
      { promptRaw := "a red car", action := "text2img",
        camera_path := "orbit", angles := ["front view"], strength := 6 / 10,
        seedOpt := none, seed_lock := false, batch_count_raw := 1 }).1 rfl
  · exact ((singlePrompt_orbit_spec
      { promptRaw := "a red car", action := "text2img",
        camera_path := "none", angles := ["front view"], strength := 6 / 10,
        seedOpt := none, seed_lock := false, batch_count_raw := 1 }).2
      (by decide)).1 "front view" [] rfl (by decide)

